import Mathlib

/-!
Shallow embedding of the RAG chatbot repository (src/ingest_pdf.py, src/app.py).

External services (Azure OpenAI, Azure AI Search, PyMuPDF, PIL) are modelled as
abstract function parameters that may fail; the repository's own logic — key
sanitization, record construction, the per-page loop with exception handling,
the retrieval projection and the chat-history updates — is translated directly
from the source.
-/

/-- Characters accepted by the regex character class `[a-zA-Z0-9_\-=]` used in
`safe_id` (src/ingest_pdf.py line 17). -/
def allowedChar (c : Char) : Bool :=
  ('a' ≤ c && c ≤ 'z') || ('A' ≤ c && c ≤ 'Z') || ('0' ≤ c && c ≤ '9') ||
    c == '_' || c == '-' || c == '='

/-- Action of the `re.sub` in `safe_id` on one character: characters outside
the allowed class are replaced by a single underscore. -/
def sanitizeChar (c : Char) : Char :=
  if allowedChar c then c else '_'

/-- Translation of `safe_id` (src/ingest_pdf.py lines 12-17):
`re.sub` with the pattern above replaces every character outside the allowed
class by a single underscore, character by character. -/
def safe_id (text : String) : String :=
  String.mk (text.data.map sanitizeChar)

/-- Decimal digit list of a natural number, most significant digit first.
This is the rendering the Python f-string applies to the integer `page_num`;
the lemma `Nat_repr_data_eq_decimalDigits` connects it to `Nat.repr`,
which is what Lean's `toString` on `Nat` computes. -/
def decimalDigits (n : Nat) : List Char :=
  if h : n < 10 then [Nat.digitChar n]
  else decimalDigits (n / 10) ++ [Nat.digitChar (n % 10)]
decreasing_by exact Nat.div_lt_self (by omega) (by omega)

/-- Value recovered from a decimal digit list; left inverse of `decimalDigits`. -/
def decimalVal (l : List Char) : Nat :=
  l.foldl (fun acc c => 10 * acc + (c.toNat - 48)) 0

lemma decimalDigits_lt {n : Nat} (h : n < 10) :
    decimalDigits n = [Nat.digitChar n] := by
  rw [decimalDigits]
  simp [h]

lemma decimalDigits_ge {n : Nat} (h : ¬ n < 10) :
    decimalDigits n = decimalDigits (n / 10) ++ [Nat.digitChar (n % 10)] := by
  rw [decimalDigits]
  simp [h]

lemma digitChar_isDigit {m : Nat} (h : m < 10) : (Nat.digitChar m).isDigit := by
  interval_cases m <;> decide

lemma digitChar_toNat {m : Nat} (h : m < 10) : (Nat.digitChar m).toNat = m + 48 := by
  interval_cases m <;> decide

lemma decimalVal_decimalDigits (n : Nat) : decimalVal (decimalDigits n) = n := by
  induction n using Nat.strong_induction_on with
  | _ n ih =>
    by_cases h : n < 10
    · rw [decimalDigits_lt h]
      simp [decimalVal, digitChar_toNat h]
    · rw [decimalDigits_ge h]
      have hdiv : n / 10 < n := Nat.div_lt_self (by omega) (by omega)
      have hmod : n % 10 < 10 := Nat.mod_lt _ (by omega)
      have := ih (n / 10) hdiv
      simp only [decimalVal] at this ⊢
      rw [List.foldl_append, this]
      simp [digitChar_toNat hmod]
      omega

lemma decimalDigits_injective {m n : Nat}
    (h : decimalDigits m = decimalDigits n) : m = n := by
  have := congrArg decimalVal h
  simpa [decimalVal_decimalDigits] using this

lemma decimalDigits_isDigit (n : Nat) : ∀ c ∈ decimalDigits n, c.isDigit := by
  induction n using Nat.strong_induction_on with
  | _ n ih =>
    by_cases h : n < 10
    · rw [decimalDigits_lt h]
      simpa using digitChar_isDigit h
    · rw [decimalDigits_ge h]
      have hdiv : n / 10 < n := Nat.div_lt_self (by omega) (by omega)
      have hmod : n % 10 < 10 := Nat.mod_lt _ (by omega)
      intro c hc
      rcases List.mem_append.mp hc with hc | hc
      · exact ih (n / 10) hdiv c hc
      · simp at hc
        subst hc
        exact digitChar_isDigit hmod

lemma decimalDigits_ne_nil (n : Nat) : decimalDigits n ≠ [] := by
  by_cases h : n < 10
  · rw [decimalDigits_lt h]
    simp
  · rw [decimalDigits_ge h]
    simp

lemma toDigitsCore_eq_decimalDigits (f : Nat) :
    ∀ (n : Nat) (l : List Char), 0 < f → n < 10 ^ f →
      Nat.toDigitsCore 10 f n l = decimalDigits n ++ l := by
  induction f with
  | zero => intro n l hf _; omega
  | succ f ih =>
    intro n l _ hn
    by_cases h : n / 10 = 0
    · have h10 : n < 10 := by omega
      rw [Nat.toDigitsCore, if_pos h, decimalDigits_lt h10, Nat.mod_eq_of_lt h10]
      rfl
    · have h10 : ¬ n < 10 := by omega
      have hf : 0 < f := by
        rcases Nat.eq_zero_or_pos f with rfl | hf
        · simp at hn; omega
        · exact hf
      have hlt : n / 10 < 10 ^ f := by
        rw [pow_succ] at hn
        exact Nat.div_lt_of_lt_mul (by omega)
      rw [Nat.toDigitsCore, if_neg h, ih (n / 10) _ hf hlt,
        decimalDigits_ge h10, List.append_assoc]
      rfl

lemma Nat_repr_data_eq_decimalDigits (n : Nat) :
    (Nat.repr n).data = decimalDigits n := by
  have hlt : n < 10 ^ (n + 1) :=
    lt_of_lt_of_le (Nat.lt_pow_self (by decide) n)
      (Nat.pow_le_pow_right (by decide) (Nat.le_succ n))
  have := toDigitsCore_eq_decimalDigits (n + 1) n [] (Nat.succ_pos n) hlt
  show (Nat.toDigits 10 n).asString.data = decimalDigits n
  rw [Nat.toDigits, this]
  simp [List.asString]

/-- Record ID built by `upload_page` (src/ingest_pdf.py line 197): the
f-string interpolation of the sanitized document name, the page number and
the content type. -/
def record_id (safe_doc_name : String) (page_num : Nat) (content_type : String) : String :=
  safe_doc_name ++ "_page_" ++ toString page_num ++ "_" ++ content_type

/-- One document of the search index, with the fields written by `upload_page`
(src/ingest_pdf.py lines 196-205). Embedding vectors come from an external
service and are kept abstract in the type parameter `V`. -/
structure SearchDoc (V : Type) where
  id : String
  content : String
  contentVector : V
  doc : String
  page : Nat
  «section» : String
  year : String
  content_type : String
deriving DecidableEq

/-- Translation of `upload_page` (src/ingest_pdf.py lines 180-208). The Azure
embedding call `create_embedding` is a parameter that may raise. The source
builds the two-entry `documents` list in a loop and passes it to one
`search_client.upload_documents` call; here the function returns that batch
(or the first raised error), and the transport of the batch is modelled at
the call site in `process_page`. The source gives `section` the default
value `"Auto-detected"`; callers here pass it explicitly. -/
def upload_page {V : Type} (create_embedding : String → Except String V)
    (doc_name : String) (page_num : Nat) (year : String)
    (detail_text : String) (summary_text : String)
    («section» : String) : Except String (List (SearchDoc V)) := do
  let safe_doc_name := safe_id doc_name
  let documents ← [(detail_text, "page_detail"), (summary_text, "page_summary")].mapM
    (fun pc => do
      let vec ← create_embedding pc.1
      pure { id := record_id safe_doc_name page_num pc.2,
             content := pc.1,
             contentVector := vec,
             doc := doc_name,
             page := page_num,
             «section» := «section»,
             year := year,
             content_type := pc.2 })
  pure documents

/-- External operations used inside the per-page `try` block of `ingest_pdf`
(src/ingest_pdf.py lines 222-237): JPEG conversion, vision extraction,
summarization, embedding and the upload call. Each may raise. -/
structure PipelineOps (V : Type) where
  convert_to_jpeg : String → Except String String
  extract_page_detail : String → Except String String
  generate_page_summary : String → Except String String
  create_embedding : String → Except String V
  upload_documents : List (SearchDoc V) → Except String Unit

/-- Body of the `try` block of `ingest_pdf` for one page
(src/ingest_pdf.py lines 222-237): convert the page image to JPEG, extract
the detail text, summarize it, and upload the two-document batch built by
`upload_page`. The first raised error aborts this page's processing. -/
def process_page {V : Type} (ops : PipelineOps V) (doc_name : String) (year : String)
    (page_num : Nat) (image_path : String) : Except String Unit := do
  let image_path ← ops.convert_to_jpeg image_path
  let detail_text ← ops.extract_page_detail image_path
  let summary_text ← ops.generate_page_summary detail_text
  let documents ← upload_page ops.create_embedding doc_name page_num year
    detail_text summary_text "Auto-detected"
  ops.upload_documents documents

/-- Outcome of one loop iteration of `ingest_pdf`: either the page was stored,
or the `except` handler (src/ingest_pdf.py lines 239-240) logged the failure
for that page. -/
inductive IngestEvent where
  | processed (page_num : Nat)
  | failed (page_num : Nat) (err : String)
deriving DecidableEq

/-- Translation of the page loop of `ingest_pdf` (src/ingest_pdf.py
lines 213-242): for each `(page_num, image_path)` produced by
`pdf_to_images` (kept abstract as the input list), run the `try` block;
on an exception, record the failure log for that page and continue with
the remaining pages. -/
def ingest_pdf {V : Type} (ops : PipelineOps V) (doc_name : String) (year : String) :
    List (Nat × String) → List IngestEvent
  | [] => []
  | (page_num, image_path) :: rest =>
    (match process_page ops doc_name year page_num image_path with
     | Except.ok _ => IngestEvent.processed page_num
     | Except.error e => IngestEvent.failed page_num e) ::
      ingest_pdf ops doc_name year rest

/-- One row of a search result, restricted to the fields selected by
`retrieve_documents` (src/app.py line 110) and copied into its output
dictionaries (src/app.py lines 115-120). -/
structure SearchResult where
  content : String
  doc : String
  page : Nat
  content_type : String
deriving DecidableEq

/-- Translation of `retrieve_documents` (src/app.py lines 97-122): embed the
query, hand the vector and the requested `top_k` to the search service
(abstract parameter `search`), then copy each yielded row into an output
dictionary, in iteration order. The source applies no truncation of its own. -/
def retrieve_documents {V : Type} (embed_query : String → V)
    (search : V → Nat → List SearchResult)
    (query : String) (top_k : Nat) : List SearchResult :=
  let vector := embed_query query
  let results := search vector top_k
  results.map (fun r =>
    { content := r.content, doc := r.doc, page := r.page,
      content_type := r.content_type })

/-- One chat message as stored in `st.session_state.messages`
(src/app.py lines 189-191 and 215-217). -/
structure ChatMessage where
  role : String
  content : String
deriving DecidableEq

/-- User-driven updates of the session message list: a completed chat turn
(src/app.py lines 187-217) or the Clear Chat button (src/app.py lines 53-55). -/
inductive ChatAction where
  | turn (user_input : String) (assistant_response : String)
  | clear
deriving DecidableEq

/-- State update of `st.session_state.messages`. A completed turn appends the
user message (src/app.py lines 189-191) and then, after streaming finishes,
the assistant message (src/app.py lines 215-217); Clear Chat resets the list
to empty (src/app.py line 54). -/
def chat_step (messages : List ChatMessage) : ChatAction → List ChatMessage
  | ChatAction.turn u a =>
    (messages ++ [{ role := "user", content := u }]) ++
      [{ role := "assistant", content := a }]
  | ChatAction.clear => []

lemma sanitizeChar_allowed (c : Char) : allowedChar (sanitizeChar c) = true := by
  unfold sanitizeChar
  by_cases h : allowedChar c
  · simpa [h]
  · rw [if_neg h]
    decide

lemma sanitizeChar_idem (c : Char) :
    sanitizeChar (sanitizeChar c) = sanitizeChar c := by
  by_cases h : allowedChar c
  · unfold sanitizeChar
    simp [h]
  · unfold sanitizeChar
    rw [if_neg h]
    decide

/-- C3: every character of the output of `safe_id` lies in the allowed set
(letters, digits, underscore, hyphen, equals). -/
theorem safe_id_only_allowed_chars (s : String) :
    (safe_id s).data.all allowedChar = true := by
  rw [List.all_eq_true]
  intro c hc
  obtain ⟨a, -, rfl⟩ := List.mem_map.mp hc
  exact sanitizeChar_allowed a

/-- C9: `safe_id` is idempotent: sanitizing an already-sanitized string
changes nothing. -/
theorem safe_id_idempotent (s : String) : safe_id (safe_id s) = safe_id s := by
  apply String.ext
  show (s.data.map sanitizeChar).map sanitizeChar = s.data.map sanitizeChar
  rw [List.map_map]
  have h : sanitizeChar ∘ sanitizeChar = sanitizeChar := funext sanitizeChar_idem
  rw [h]

/-- Two document names differ only in disallowed characters: they have the
same length and, position by position, the characters either agree or are
both outside the allowed class. -/
def differOnlyInDisallowed (s t : String) : Prop :=
  s.data.length = t.data.length ∧
    ∀ pc ∈ s.data.zip t.data,
      pc.1 = pc.2 ∨ (allowedChar pc.1 = false ∧ allowedChar pc.2 = false)

instance (s t : String) : Decidable (differOnlyInDisallowed s t) := by
  unfold differOnlyInDisallowed
  exact inferInstance

lemma map_sanitize_eq_of_zip :
    ∀ l1 l2 : List Char, l1.length = l2.length →
      (∀ pc ∈ l1.zip l2,
        pc.1 = pc.2 ∨ (allowedChar pc.1 = false ∧ allowedChar pc.2 = false)) →
      l1.map sanitizeChar = l2.map sanitizeChar := by
  intro l1
  induction l1 with
  | nil =>
    intro l2 hlen _
    cases l2 with
    | nil => rfl
    | cons b bs => simp at hlen
  | cons a as ih =>
    intro l2 hlen hpt
    cases l2 with
    | nil => simp at hlen
    | cons b bs =>
      have hab : a = b ∨ (allowedChar a = false ∧ allowedChar b = false) :=
        hpt (a, b) (by simp)
      have hrest : ∀ pc ∈ as.zip bs,
          pc.1 = pc.2 ∨ (allowedChar pc.1 = false ∧ allowedChar pc.2 = false) :=
        fun pc hpc => hpt pc (by simp [hpc])
      simp only [List.map_cons]
      congr 1
      · rcases hab with h | ⟨h1, h2⟩
        · rw [h]
        · simp [sanitizeChar, h1, h2]
      · exact ih bs (by simpa using hlen) hrest

lemma safe_id_eq_of_differOnlyInDisallowed {s t : String}
    (h : differOnlyInDisallowed s t) : safe_id s = safe_id t :=
  String.ext (map_sanitize_eq_of_zip _ _ h.1 h.2)

lemma record_id_left_inj (n1 n2 : String) (p : Nat) (c : String) :
    record_id n1 p c = record_id n2 p c ↔ n1 = n2 := by
  constructor
  · intro h
    have hd := congrArg String.data h
    simp only [record_id, String.data_append, List.append_assoc] at hd
    exact String.ext (List.append_cancel_right hd)
  · intro h
    rw [h]

/-- C4: for a pair of document names that differ only in disallowed
characters, their sanitized forms coincide, and the derived keys built from
them collide exactly when the sanitized forms are identical — so no collision
happens between such names unless the sanitized forms are identical. -/
theorem safe_id_no_unintended_collision (s t : String) (p : Nat) (c : String)
    (h : differOnlyInDisallowed s t) :
    safe_id s = safe_id t ∧
      (record_id (safe_id s) p c = record_id (safe_id t) p c ↔
        safe_id s = safe_id t) :=
  ⟨safe_id_eq_of_differOnlyInDisallowed h, record_id_left_inj _ _ p c⟩

/-- Witness for C4 at the concrete pair "a b" and "a.b". -/
theorem safe_id_no_unintended_collision_witness :
    differOnlyInDisallowed "a b" "a.b" ∧
      (safe_id "a b" = safe_id "a.b" ∧
        (record_id (safe_id "a b") 1 "page_detail" =
            record_id (safe_id "a.b") 1 "page_detail" ↔
          safe_id "a b" = safe_id "a.b")) :=
  ⟨by decide, safe_id_no_unintended_collision "a b" "a.b" 1 "page_detail" (by decide)⟩

lemma getLast?_append_cons {α : Type} (x : List α) (a : α) (l : List α) :
    (x ++ a :: l).getLast? = (a :: l).getLast? := by
  rw [List.getLast?_append]
  cases hl : (a :: l).getLast? with
  | none => simp at hl
  | some v => rfl

lemma digit_sep_eq : ∀ d1 d2 r1 r2 : List Char,
    (∀ c ∈ d1, c.isDigit) → (∀ c ∈ d2, c.isDigit) →
    d1 ++ '_' :: r1 = d2 ++ '_' :: r2 → d1 = d2 ∧ r1 = r2 := by
  intro d1
  induction d1 with
  | nil =>
    intro d2 r1 r2 _ hd2 h
    cases d2 with
    | nil => simpa using h
    | cons b bs =>
      simp only [List.nil_append, List.cons_append] at h
      injection h with h1 _
      have hb := hd2 b (by simp)
      rw [← h1] at hb
      exact absurd hb (by decide)
  | cons a as ih =>
    intro d2 r1 r2 hd1 hd2 h
    cases d2 with
    | nil =>
      simp only [List.nil_append, List.cons_append] at h
      injection h with h1 _
      have ha := hd1 a (by simp)
      rw [h1] at ha
      exact absurd ha (by decide)
    | cons b bs =>
      simp only [List.cons_append] at h
      injection h with h1 h2
      obtain ⟨hd, hr⟩ := ih bs r1 r2
        (fun c hc => hd1 c (by simp [hc])) (fun c hc => hd2 c (by simp [hc])) h2
      exact ⟨by rw [h1, hd], hr⟩

lemma append_sep_digits_inj {x1 x2 d1 d2 : List Char}
    (hd1 : ∀ c ∈ d1, c.isDigit) (hd2 : ∀ c ∈ d2, c.isDigit)
    (h : x1 ++ '_' :: d1 = x2 ++ '_' :: d2) : x1 = x2 ∧ d1 = d2 := by
  have hrev : d1.reverse ++ '_' :: x1.reverse = d2.reverse ++ '_' :: x2.reverse := by
    have hr := congrArg List.reverse h
    simpa [List.reverse_append] using hr
  obtain ⟨hd, hx⟩ := digit_sep_eq _ _ _ _
    (fun c hc => hd1 c (List.mem_reverse.mp hc))
    (fun c hc => hd2 c (List.mem_reverse.mp hc)) hrev
  exact ⟨List.reverse_injective hx, List.reverse_injective hd⟩

lemma toString_nat_data (n : Nat) : (toString n).data = decimalDigits n :=
  Nat_repr_data_eq_decimalDigits n

lemma record_id_data (n : String) (p : Nat) (c : String) :
    (record_id n p c).data =
      ((n.data ++ ['_', 'p', 'a', 'g', 'e']) ++ '_' :: decimalDigits p) ++
        '_' :: c.data := by
  have h1 : ("_page_" : String).data = ['_', 'p', 'a', 'g', 'e', '_'] := rfl
  have h2 : ("_" : String).data = ['_'] := rfl
  simp only [record_id, String.data_append, toString_nat_data, h1, h2]
  simp [List.append_assoc]

/-- C5: uniqueness of the composite key: two triples of sanitized document
name, positive page number and content type drawn from the two types written
by `upload_page` build distinct record IDs whenever the triples are
distinct. -/
theorem record_id_unique (n1 n2 : String) (p1 p2 : Nat) (c1 c2 : String)
    (hp1 : 0 < p1) (hp2 : 0 < p2)
    (hc1 : c1 = "page_detail" ∨ c1 = "page_summary")
    (hc2 : c2 = "page_detail" ∨ c2 = "page_summary")
    (hne : ¬(n1 = n2 ∧ p1 = p2 ∧ c1 = c2)) :
    record_id n1 p1 c1 ≠ record_id n2 p2 c2 := by
  intro heq
  apply hne
  have hd := congrArg String.data heq
  rw [record_id_data, record_id_data] at hd
  have hc : c1 = c2 := by
    rcases hc1 with rfl | rfl <;> rcases hc2 with rfl | rfl
    · rfl
    · exfalso
      have hlast := congrArg List.getLast? hd
      rw [getLast?_append_cons, getLast?_append_cons] at hlast
      exact absurd hlast (by decide)
    · exfalso
      have hlast := congrArg List.getLast? hd
      rw [getLast?_append_cons, getLast?_append_cons] at hlast
      exact absurd hlast (by decide)
    · rfl
  subst hc
  have hx := List.append_cancel_right hd
  obtain ⟨hn5, hdig⟩ := append_sep_digits_inj
    (decimalDigits_isDigit p1) (decimalDigits_isDigit p2) hx
  exact ⟨String.ext (List.append_cancel_right hn5),
    decimalDigits_injective hdig, rfl⟩

/-- Witness for C5 at two concrete triples differing in the page number. -/
theorem record_id_unique_witness :
    0 < 1 ∧ 0 < 2 ∧
      ¬(("doc" : String) = "doc" ∧ (1 : Nat) = 2 ∧
        ("page_detail" : String) = "page_detail") ∧
      record_id "doc" 1 "page_detail" ≠ record_id "doc" 2 "page_detail" :=
  ⟨by decide, by decide, by decide,
    record_id_unique "doc" "doc" 1 2 "page_detail" "page_detail"
      (by decide) (by decide) (Or.inl rfl) (Or.inl rfl) (by decide)⟩

lemma upload_page_eq {V : Type} (ce : String → Except String V)
    (d : String) (p : Nat) (y dt st sec : String) :
    upload_page ce d p y dt st sec =
      match ce dt with
      | Except.error e => Except.error e
      | Except.ok v1 =>
        match ce st with
        | Except.error e => Except.error e
        | Except.ok v2 =>
          Except.ok
            [{ id := record_id (safe_id d) p "page_detail", content := dt,
               contentVector := v1, doc := d, page := p, «section» := sec,
               year := y, content_type := "page_detail" },
             { id := record_id (safe_id d) p "page_summary", content := st,
               contentVector := v2, doc := d, page := p, «section» := sec,
               year := y, content_type := "page_summary" }] := by
  cases h1 : ce dt with
  | error e =>
    simp only [upload_page, List.mapM, List.mapM.loop, h1]
    rfl
  | ok v1 =>
    cases h2 : ce st with
    | error e =>
      simp only [upload_page, List.mapM, List.mapM.loop, h1, h2]
      rfl
    | ok v2 =>
      simp only [upload_page, List.mapM, List.mapM.loop, h1, h2]
      rfl

lemma upload_page_ok_elim {V : Type} {ce : String → Except String V}
    {d : String} {p : Nat} {y dt st sec : String} {docs : List (SearchDoc V)}
    (h : upload_page ce d p y dt st sec = Except.ok docs) :
    ∃ v1 v2, ce dt = Except.ok v1 ∧ ce st = Except.ok v2 ∧
      docs =
        [{ id := record_id (safe_id d) p "page_detail", content := dt,
           contentVector := v1, doc := d, page := p, «section» := sec,
           year := y, content_type := "page_detail" },
         { id := record_id (safe_id d) p "page_summary", content := st,
           contentVector := v2, doc := d, page := p, «section» := sec,
           year := y, content_type := "page_summary" }] := by
  rw [upload_page_eq] at h
  cases h1 : ce dt with
  | error e =>
    rw [h1] at h
    exact absurd h (by simp)
  | ok v1 =>
    cases h2 : ce st with
    | error e =>
      rw [h1, h2] at h
      exact absurd h (by simp)
    | ok v2 =>
      rw [h1, h2] at h
      exact ⟨v1, v2, rfl, rfl, (Except.ok.injEq _ _ ▸ h).symm⟩

/-- C2: the record IDs produced by `upload_page` are the deterministic
function of document name, page number and content type given by
sanitized-name ++ "_page_" ++ page-number ++ "_" ++ content-type; they do
not depend on the embedding service, the extracted texts, the year or the
section, so re-running ingestion over the same inputs yields the same IDs. -/
theorem upload_page_ids {V : Type} (create_embedding : String → Except String V)
    (doc_name : String) (page_num : Nat)
    (year detail_text summary_text sec : String) (docs : List (SearchDoc V))
    (h : upload_page create_embedding doc_name page_num year detail_text
        summary_text sec = Except.ok docs) :
    docs.map (fun r => r.id) =
      [safe_id doc_name ++ "_page_" ++ toString page_num ++ "_" ++ "page_detail",
       safe_id doc_name ++ "_page_" ++ toString page_num ++ "_" ++ "page_summary"] := by
  obtain ⟨v1, v2, -, -, rfl⟩ := upload_page_ok_elim h
  simp [record_id]

/-- C7: on success, `upload_page` hands the search index exactly two
documents in its single upload call: the page detail and the page summary,
each carrying the embedding of its own content. -/
theorem upload_page_two_docs {V : Type} (create_embedding : String → Except String V)
    (doc_name : String) (page_num : Nat)
    (year detail_text summary_text sec : String) (docs : List (SearchDoc V))
    (h : upload_page create_embedding doc_name page_num year detail_text
        summary_text sec = Except.ok docs) :
    docs.length = 2 ∧
      docs.map (fun r => (r.content, r.content_type)) =
        [(detail_text, "page_detail"), (summary_text, "page_summary")] ∧
      ∀ r ∈ docs, create_embedding r.content = Except.ok r.contentVector := by
  obtain ⟨v1, v2, h1, h2, rfl⟩ := upload_page_ok_elim h
  refine ⟨rfl, rfl, ?_⟩
  intro r hr
  simp only [List.mem_cons, List.not_mem_nil, or_false] at hr
  rcases hr with rfl | rfl
  · exact h1
  · exact h2

/-- C10: every record built by `upload_page` stores the original, unsanitized
document name in its "doc" field (src/ingest_pdf.py line 200), while the "id"
field is the only one built from the sanitized form. -/
theorem upload_page_doc_field {V : Type} (create_embedding : String → Except String V)
    (doc_name : String) (page_num : Nat)
    (year detail_text summary_text sec : String) (docs : List (SearchDoc V))
    (h : upload_page create_embedding doc_name page_num year detail_text
        summary_text sec = Except.ok docs) :
    docs.map (fun r => r.doc) = [doc_name, doc_name] ∧
      docs.map (fun r => r.id) =
        [record_id (safe_id doc_name) page_num "page_detail",
         record_id (safe_id doc_name) page_num "page_summary"] := by
  obtain ⟨v1, v2, -, -, rfl⟩ := upload_page_ok_elim h
  exact ⟨rfl, rfl⟩

/-- Concrete embedding stub used by the witnesses: the length of the text. -/
def embLen : String → Except String Nat :=
  fun s => Except.ok s.data.length

/-- Concrete result of `upload_page embLen "rpt 24" 3 "FY24" "D" "S"
"Auto-detected"`, used by the witnesses. -/
def uploadDocs0 : List (SearchDoc Nat) :=
  [{ id := "rpt_24_page_3_page_detail", content := "D", contentVector := 1,
     doc := "rpt 24", page := 3, «section» := "Auto-detected", year := "FY24",
     content_type := "page_detail" },
   { id := "rpt_24_page_3_page_summary", content := "S", contentVector := 1,
     doc := "rpt 24", page := 3, «section» := "Auto-detected", year := "FY24",
     content_type := "page_summary" }]

/-- Witness for C2 at a concrete document name containing a space. -/
theorem upload_page_ids_witness :
    upload_page embLen "rpt 24" 3 "FY24" "D" "S" "Auto-detected" =
        Except.ok uploadDocs0 ∧
      uploadDocs0.map (fun r => r.id) =
        [safe_id "rpt 24" ++ "_page_" ++ toString 3 ++ "_" ++ "page_detail",
         safe_id "rpt 24" ++ "_page_" ++ toString 3 ++ "_" ++ "page_summary"] :=
  ⟨rfl, upload_page_ids embLen "rpt 24" 3 "FY24" "D" "S" "Auto-detected"
    uploadDocs0 rfl⟩

/-- Witness for C7 at the same concrete inputs. -/
theorem upload_page_two_docs_witness :
    upload_page embLen "rpt 24" 3 "FY24" "D" "S" "Auto-detected" =
        Except.ok uploadDocs0 ∧
      (uploadDocs0.length = 2 ∧
        uploadDocs0.map (fun r => (r.content, r.content_type)) =
          [("D", "page_detail"), ("S", "page_summary")] ∧
        ∀ r ∈ uploadDocs0, embLen r.content = Except.ok r.contentVector) :=
  ⟨rfl, upload_page_two_docs embLen "rpt 24" 3 "FY24" "D" "S" "Auto-detected"
    uploadDocs0 rfl⟩

/-- Witness for C10 at the same concrete inputs. -/
theorem upload_page_doc_field_witness :
    upload_page embLen "rpt 24" 3 "FY24" "D" "S" "Auto-detected" =
        Except.ok uploadDocs0 ∧
      (uploadDocs0.map (fun r => r.doc) = ["rpt 24", "rpt 24"] ∧
        uploadDocs0.map (fun r => r.id) =
          [record_id (safe_id "rpt 24") 3 "page_detail",
           record_id (safe_id "rpt 24") 3 "page_summary"]) :=
  ⟨rfl, upload_page_doc_field embLen "rpt 24" 3 "FY24" "D" "S" "Auto-detected"
    uploadDocs0 rfl⟩

lemma ingest_pdf_cons {V : Type} (ops : PipelineOps V) (doc_name year : String)
    (pn : Nat) (ip : String) (rest : List (Nat × String)) :
    ingest_pdf ops doc_name year ((pn, ip) :: rest) =
      (match process_page ops doc_name year pn ip with
       | Except.ok _ => IngestEvent.processed pn
       | Except.error e => IngestEvent.failed pn e) ::
        ingest_pdf ops doc_name year rest := rfl

/-- C1: a page-processing failure inside the per-page try block is logged as
a failure event for that page, and ingestion continues with the remaining
pages exactly as it would have: the log for pre ++ failing-page ++ post is
the log of pre, then the failure entry, then the log of post. -/
theorem ingest_pdf_logs_and_continues {V : Type} (ops : PipelineOps V)
    (doc_name year : String) (pre post : List (Nat × String))
    (n : Nat) (img e : String)
    (h : process_page ops doc_name year n img = Except.error e) :
    ingest_pdf ops doc_name year (pre ++ (n, img) :: post) =
      ingest_pdf ops doc_name year pre ++
        IngestEvent.failed n e :: ingest_pdf ops doc_name year post := by
  induction pre with
  | nil =>
    rw [List.nil_append, ingest_pdf_cons, h]
    rfl
  | cons hd tl ih =>
    obtain ⟨pn, ip⟩ := hd
    rw [List.cons_append, ingest_pdf_cons, ingest_pdf_cons, ih]
    rfl

/-- Concrete pipeline whose JPEG conversion fails on page_2.png, used by the
witness for C1. -/
def opsFail2 : PipelineOps Nat :=
  { convert_to_jpeg := fun p =>
      if p = "page_2.png" then Except.error "boom" else Except.ok p,
    extract_page_detail := fun _ => Except.ok "detail",
    generate_page_summary := fun _ => Except.ok "summary",
    create_embedding := fun s => Except.ok s.data.length,
    upload_documents := fun _ => Except.ok () }

/-- Witness for C1: with page 2 failing, pages 1 and 3 are still processed. -/
theorem ingest_pdf_logs_and_continues_witness :
    process_page opsFail2 "Doc" "FY24" 2 "page_2.png" = Except.error "boom" ∧
      ingest_pdf opsFail2 "Doc" "FY24"
          ([(1, "page_1.png")] ++ (2, "page_2.png") :: [(3, "page_3.png")]) =
        ingest_pdf opsFail2 "Doc" "FY24" [(1, "page_1.png")] ++
          IngestEvent.failed 2 "boom" ::
            ingest_pdf opsFail2 "Doc" "FY24" [(3, "page_3.png")] :=
  ⟨rfl, ingest_pdf_logs_and_continues opsFail2 "Doc" "FY24"
    [(1, "page_1.png")] [(3, "page_3.png")] 2 "page_2.png" "boom" rfl⟩

/-- Query embedding stub used by the C6 theorems. -/
def embConst : String → Nat := fun s => s.data.length

/-- A search service that ignores the requested k and yields two rows;
nothing in `retrieve_documents` prevents this from reaching the caller. -/
def overfullSearch : Nat → Nat → List SearchResult :=
  fun _ _ =>
    [{ content := "c1", doc := "d", page := 1, content_type := "page_detail" },
     { content := "c2", doc := "d", page := 2, content_type := "page_summary" }]

/-- Counterexample to C6 as stated: quantified over every result sequence the
service may return, the at-most-top_k bound fails, because
`retrieve_documents` applies no truncation of its own: with top_k = 1 and a
service yielding two rows, it returns two documents. -/
theorem retrieve_documents_can_exceed_top_k :
    ¬ (retrieve_documents embConst overfullSearch "q" 1).length ≤ 1 := by
  decide

/-- C6 amended: `retrieve_documents` returns exactly the rows the service
yields, one output document per row and in the service's order (so the
ranking order is preserved); consequently the output has at most top_k
documents whenever the service honours the requested k = top_k bound. -/
theorem retrieve_documents_order_preserving {V : Type} (embed_query : String → V)
    (search : V → Nat → List SearchResult) (query : String) (top_k : Nat) :
    retrieve_documents embed_query search query top_k =
        search (embed_query query) top_k ∧
      ((search (embed_query query) top_k).length ≤ top_k →
        (retrieve_documents embed_query search query top_k).length ≤ top_k) := by
  have h : retrieve_documents embed_query search query top_k
      = search (embed_query query) top_k := by
    show List.map (fun r =>
      { content := r.content, doc := r.doc, page := r.page,
        content_type := r.content_type : SearchResult })
        (search (embed_query query) top_k) = search (embed_query query) top_k
    exact List.map_id _
  refine ⟨h, fun hle => ?_⟩
  rw [h]
  exact hle

/-- A search service that honours the requested k by truncation, used by the
witness for the amended C6. -/
def truncatingSearch : Nat → Nat → List SearchResult :=
  fun _ k =>
    ([{ content := "c1", doc := "d", page := 1, content_type := "page_detail" },
      { content := "c2", doc := "d", page := 2, content_type := "page_summary" }]).take k

/-- Witness for the amended C6 at a concrete honouring service and top_k = 1. -/
theorem retrieve_documents_order_preserving_witness :
    (truncatingSearch (embConst "q") 1).length ≤ 1 ∧
      retrieve_documents embConst truncatingSearch "q" 1 =
        truncatingSearch (embConst "q") 1 ∧
      (retrieve_documents embConst truncatingSearch "q" 1).length ≤ 1 :=
  ⟨by decide,
    (retrieve_documents_order_preserving embConst truncatingSearch "q" 1).1,
    (retrieve_documents_order_preserving embConst truncatingSearch "q" 1).2
      (by decide)⟩

/-- C8: the chat history is append-only across completed turns — a turn
extends the list with the user message followed by the assistant message,
leaving every earlier entry unchanged — and an update yields the empty
history exactly when the action is the explicit Clear Chat. -/
theorem chat_history_append_only_and_clear (messages : List ChatMessage)
    (u a : String) :
    chat_step messages (ChatAction.turn u a) =
        messages ++
          [{ role := "user", content := u }, { role := "assistant", content := a }] ∧
      ∀ act, chat_step messages act = [] ↔ act = ChatAction.clear := by
  constructor
  · simp [chat_step]
  · intro act
    cases act with
    | turn u' a' => simp [chat_step]
    | clear => simp [chat_step]
